import Mathlib

/-!
Verification of the field-accessor ("form builder") layer: a shallow
embedding of `src/formbuilder.tsx`.

The runtime content of the repository is a recursive proxy
(`createFormBuilder`) that lazily builds dotted path strings, a path
composition helper (`prependCurrentPath`), and thin wrappers around the
external form-state engine's primitives.  The engine itself is external;
its primitives are modelled as oracle functions passed in as parameters.
-/

namespace FormBuilder

/-- The dotted path of a handle: `path.join('.')` in the source
(`createFormBuilder`, `currentPath`). -/
def joinPath (path : List String) : String :=
  String.intercalate "." path

/-- A field handle, as built by `createFormBuilder(methods, path, key?)`:
it is determined by the path segments accumulated so far and the optional
stable element key set when the handle is created inside `$useFieldArray`. -/
structure Handle where
  path : List String
  key : Option String
deriving DecidableEq, Repr

/-- The root handle: `createFormBuilder(methods, [])`. -/
def rootHandle : Handle := ⟨[], none⟩

/-- The default (recursion) case of the proxy `get` trap:
`createFormBuilder(methods, [...path, prop.toString()])` — child at one
segment deeper, with no key argument. -/
def childHandle (h : Handle) (prop : String) : Handle :=
  ⟨h.path ++ [prop], none⟩

/-- Repeated child (property) access along a sequence of segments. -/
def descend (h : Handle) (p : List String) : Handle :=
  p.foldl childHandle h

/-- The `Symbol.toPrimitive` hook of the proxy: the cached function
`() => currentPath`, invoked by `String(...)`. -/
def stringify (h : Handle) : String :=
  joinPath h.path

/-- Invoking a handle as a function (the proxy target):
throws when `currentPath.length === 0`, otherwise forwards to
`methods.register(currentPath, options)`.  The register primitive is
abstracted: we return the `(name, options)` pair it would be called with. -/
def invoke (h : Handle) (options : α) : Except String (String × α) :=
  if (joinPath h.path).length = 0 then
    .error "Cannot call register at the root."
  else
    .ok (joinPath h.path, options)

/-- The caller-supplied relative path value of `prependCurrentPath`:
`undefined`, a single string, or an array of strings. -/
inductive PathArg where
  | noArg
  | single (s : String)
  | multi (l : List String)
deriving DecidableEq, Repr

/-- The result of `prependCurrentPath`: `string | string[]`. -/
inductive PathResult where
  | single (s : String)
  | multi (l : List String)
deriving DecidableEq, Repr

/-- `prependCurrentPath(currentPath, name)` from the source:
if `currentPath.length === 0` return `name ?? ''`; if `name` is a string
return `` `${currentPath}.${name}` ``; if it is an array, prefix every
element; otherwise return `currentPath`. -/
def prependCurrentPath (currentPath : String) (name : PathArg) : PathResult :=
  if currentPath.length = 0 then
    match name with
    | .noArg => .single ""
    | .single s => .single s
    | .multi l => .multi l
  else
    match name with
    | .single s => .single (currentPath ++ "." ++ s)
    | .multi l => .multi (l.map fun s => currentPath ++ "." ++ s)
    | .noArg => .single currentPath

/-- A string has length zero exactly when it is empty. -/
theorem strLength_eq_zero_iff (s : String) : s.length = 0 ↔ s = "" := by
  cases s with
  | mk data => simp [String.length, String.ext_iff]

/-- The path of a handle reached by repeated child access is the
accumulated segment list. -/
theorem descend_path (h : Handle) (p : List String) :
    (descend h p).path = h.path ++ p := by
  induction p generalizing h with
  | nil => simp [descend]
  | cons a t ih =>
      simp only [descend, List.foldl_cons] at *
      rw [ih]
      simp [childHandle]

/-- C2 counterexample: the handle at path `[""]` (obtained from the root
by child access with the empty-string key) has a non-empty path, yet
invoking it fails with the usage error, because the code tests the dotted
path's length (`[""].join('.') === ''`), not emptiness of the segment
list. -/
theorem invoke_empty_segment_counterexample :
    (Handle.mk [""] none).path ≠ [] ∧
    invoke (Handle.mk [""] none) (0 : Nat) =
      .error "Cannot call register at the root." := by
  constructor
  · decide
  · rfl

/-- C2 (amended): invoking a handle fails with the usage error if and
only if the handle's dotted path (segments joined by `.`) is the empty
string; whenever the dotted path is non-empty it forwards to the engine's
register primitive with the dotted path and the caller-supplied options
unchanged. -/
theorem invoke_spec (h : Handle) (options : α) :
    (invoke h options = .error "Cannot call register at the root." ↔
      joinPath h.path = "") ∧
    (joinPath h.path ≠ "" → invoke h options = .ok (joinPath h.path, options)) := by
  unfold invoke
  constructor
  · constructor
    · intro he
      by_contra hne
      rw [if_neg (by simpa [strLength_eq_zero_iff] using hne)] at he
      exact Except.noConfusion he
    · intro he
      rw [if_pos (by simp [he])]
  · intro hne
    rw [if_neg (by simpa [strLength_eq_zero_iff] using hne)]

/-- Witness for C2 (amended) at the root handle and at path `["a"]`. -/
theorem invoke_spec_witness :
    (invoke rootHandle (0 : Nat) = .error "Cannot call register at the root." ↔
      joinPath rootHandle.path = "") ∧
    (joinPath (Handle.mk ["a"] none).path ≠ "" →
      invoke (Handle.mk ["a"] none) (0 : Nat) =
        .ok (joinPath (Handle.mk ["a"] none).path, (0 : Nat))) :=
  ⟨(invoke_spec rootHandle 0).1, (invoke_spec (Handle.mk ["a"] none) 0).2⟩

/-- C3: the path-composition function satisfies all five contract cases
and never fails (it is a total function): (1) empty own path, no relative
path: the empty path; (2) empty own path, supplied relative path:
unchanged (single segment or list); (3) non-empty own path, single
segment `s`: `ownPath ++ "." ++ s`; (4) non-empty own path, list: every
element prefixed; (5) non-empty own path, no relative path: the own path
unchanged. -/
theorem prependCurrentPath_cases (own s : String) (l : List String)
    (hne : own ≠ "") :
    prependCurrentPath "" .noArg = .single "" ∧
    prependCurrentPath "" (.single s) = .single s ∧
    prependCurrentPath "" (.multi l) = .multi l ∧
    prependCurrentPath own (.single s) = .single (own ++ "." ++ s) ∧
    prependCurrentPath own (.multi l) =
      .multi (l.map fun x => own ++ "." ++ x) ∧
    prependCurrentPath own .noArg = .single own := by
  have hlen : ¬ own.length = 0 := by simpa [strLength_eq_zero_iff] using hne
  refine ⟨rfl, rfl, rfl, ?_, ?_, ?_⟩ <;>
    simp [prependCurrentPath, hlen]

/-- Witness for C3 at own path `"a.b"`, segment `"x"`, list `["x","y"]`
(the spec's own example). -/
theorem prependCurrentPath_cases_witness :
    prependCurrentPath "" .noArg = .single "" ∧
    prependCurrentPath "" (.single "x") = .single "x" ∧
    prependCurrentPath "" (.multi ["x", "y"]) = .multi ["x", "y"] ∧
    prependCurrentPath "a.b" (.single "x") = .single ("a.b" ++ "." ++ "x") ∧
    prependCurrentPath "a.b" (.multi ["x", "y"]) =
      .multi (["x", "y"].map fun x => "a.b" ++ "." ++ x) ∧
    prependCurrentPath "a.b" .noArg = .single "a.b" :=
  prependCurrentPath_cases "a.b" "x" ["x", "y"] (by decide)

/-- A property key of the proxy `get` trap: either the well-known symbol
`Symbol.toPrimitive` or a string key (numeric keys arrive as strings via
`prop.toString()`). -/
inductive PropKey where
  | symbolToPrimitive
  | str (s : String)
deriving DecidableEq, Repr

/-- What a single `get` trap access yields, by case of the `switch`:
one of the reserved operation functions (each a closure over the handle's
path), the `$key` string, or a child handle (the default recursion). -/
inductive GetResult where
  | opToPrimitive
  | opKey (value : String)
  | opUseFieldArray
  | opUseController
  | opUseWatch
  | opUseState
  | opSetValue
  | opSetError
  | opDiscriminate
  | child (h : Handle)
deriving DecidableEq, Repr

/-- The `switch (prop)` of the proxy `get` trap in `createFormBuilder`,
case for case: `Symbol.toPrimitive`, `'$key'`, `'$useFieldArray'`,
`'$useController'`, `'$useWatch'`, `'$useState'`, `'$setValue'`,
`'$setError'`, `'$discriminate'`, and the default recursion into
`createFormBuilder(methods, [...path, prop.toString()])`.
There is no `'$setFocus'` case in the source. -/
def getProp (h : Handle) : PropKey → GetResult
  | .symbolToPrimitive => .opToPrimitive
  | .str s =>
    match s with
    | "$key" => .opKey (h.key.getD (joinPath h.path))
    | "$useFieldArray" => .opUseFieldArray
    | "$useController" => .opUseController
    | "$useWatch" => .opUseWatch
    | "$useState" => .opUseState
    | "$setValue" => .opSetValue
    | "$setError" => .opSetError
    | "$discriminate" => .opDiscriminate
    | _ => .child (childHandle h s)

/-- The string keys the `get` trap `switch` recognizes (besides
`Symbol.toPrimitive`). -/
def reservedNames : List String :=
  ["$key", "$useFieldArray", "$useController", "$useWatch", "$useState",
   "$setValue", "$setError", "$discriminate"]

/-- Any string key outside the reserved set takes the default branch. -/
theorem getProp_default (h : Handle) (s : String)
    (hs : s ∉ reservedNames) :
    getProp h (.str s) = .child (childHandle h s) := by
  simp only [reservedNames, List.mem_cons, not_or] at hs
  obtain ⟨h1, h2, h3, h4, h5, h6, h7, h8, -⟩ := hs
  unfold getProp
  split <;> first
    | rfl
    | (rename_i heq; cases heq <;> simp_all)

/-- C4: the `get` trap `switch` has no `'$setFocus'` case, so accessing
`$setFocus` takes the default recursion branch and yields a child handle
at `path ++ ["$setFocus"]` — not a function invoking the engine's
set-focus primitive with the handle's own path, as the `FormBuilder` type
declaration (`$setFocus(options: SetFocusOptions): void`) promises. -/
theorem getProp_setFocus (h : Handle) :
    getProp h (.str "$setFocus") = .child (Handle.mk (h.path ++ ["$setFocus"]) none) := rfl

/-! ### Property access including the cache pre-check

The `get` trap first reads `cache[prop]` and returns the value when it is
not `undefined`.  `cache` is a plain `{}` object literal, so an indexed
read at a key inherited from `Object.prototype` finds that inherited
member — a function (or, for `__proto__`, the prototype object), never
`undefined` — and the trap returns it before the `switch` runs. -/

/-- The string keys at which `cache[prop]` on a plain `{}` yields an
inherited `Object.prototype` member instead of `undefined`. -/
def protoMembers : List String :=
  ["constructor", "hasOwnProperty", "isPrototypeOf", "propertyIsEnumerable",
   "toLocaleString", "toString", "valueOf", "__proto__",
   "__defineGetter__", "__defineSetter__", "__lookupGetter__",
   "__lookupSetter__"]

/-- The outcome of one property access on a freshly created handle:
either the early-returned inherited `Object.prototype` member, or the
result of the `switch`. -/
inductive Access where
  | inherited
  | result (r : GetResult)
deriving DecidableEq, Repr

/-- One property access on a freshly created handle (own cache still
empty): the pre-check `cache[prop]` hits the inherited member for the
`Object.prototype` keys (`Symbol.toPrimitive` is not among them) and only
otherwise falls through to the `switch`. -/
def accessProp (h : Handle) (p : PropKey) : Access :=
  match p with
  | .str s =>
      if s ∈ protoMembers then .inherited else .result (getProp h p)
  | .symbolToPrimitive => .result (getProp h p)

/-- Repeated property access along `p`, defined only when every access
falls through to the default branch and yields a child handle. -/
def descendAccess : Handle → List String → Option Handle
  | h, [] => some h
  | h, s :: rest =>
    match accessProp h (.str s) with
    | .result (.child c) => descendAccess c rest
    | _ => none

/-- When every segment misses both the prototype pre-check and the
reserved names, repeated property access succeeds and accumulates the
segments. -/
theorem descendAccess_eq (h : Handle) (p : List String)
    (hp : ∀ s ∈ p, s ∉ protoMembers ∧ s ∉ reservedNames) :
    descendAccess h p = some (descend h p) := by
  induction p generalizing h with
  | nil => rfl
  | cons s rest ih =>
      obtain ⟨hproto, hres⟩ := hp s (List.mem_cons_self s rest)
      have hstep : accessProp h (.str s) = .result (.child (childHandle h s)) := by
        simp [accessProp, hproto, getProp_default h s hres]
      rw [descendAccess, hstep]
      exact ih (childHandle h s) (fun t ht => hp t (List.mem_cons_of_mem s ht))

/-- C1 counterexample: at `p = ["toString"]` the pre-check
`cache['toString']` on the plain `{}` cache finds the inherited
`Object.prototype.toString` and the trap returns it — no child handle is
produced at all, so the descent the claim asserts does not exist
(`String(fields.toString)` is the native function, not `"toString"`). -/
theorem descendAccess_toString_counterexample :
    accessProp rootHandle (.str "toString") = .inherited ∧
    descendAccess rootHandle ["toString"] = none := by
  constructor
  · decide
  · decide

/-- C1 (amended): for every non-empty sequence `p` of string segments
that are neither inherited `Object.prototype` members (at which the
`cache[prop]` pre-check returns the inherited member before the `switch`
runs) nor reserved operation names, repeated property access from the
root handle along `p` yields at every step a child handle — each access
extending the parent's path by exactly one segment — and the final handle
stringifies, via the stringification hook, to the segments of `p` joined
by `.`. -/
theorem stringify_descendAccess (p : List String) (_hne : p ≠ [])
    (hp : ∀ s ∈ p, s ∉ protoMembers ∧ s ∉ reservedNames) :
    (descendAccess rootHandle p).map stringify =
      some (String.intercalate "." p) ∧
    (descendAccess rootHandle p).map Handle.path = some p ∧
    ∀ (h : Handle) (s : String), (childHandle h s).path = h.path ++ [s] := by
  have hda := descendAccess_eq rootHandle p hp
  have hpath : (descend rootHandle p).path = p := by
    rw [descend_path]; rfl
  refine ⟨?_, ?_, fun h s => rfl⟩
  · rw [hda]
    simp [stringify, joinPath, hpath]
  · rw [hda]
    simp [hpath]

/-- Witness for C1 (amended) at `p = ["foo", "bar"]`. -/
theorem stringify_descendAccess_witness :
    (descendAccess rootHandle ["foo", "bar"]).map stringify =
      some (String.intercalate "." ["foo", "bar"]) ∧
    (descendAccess rootHandle ["foo", "bar"]).map Handle.path =
      some ["foo", "bar"] ∧
    ∀ (h : Handle) (s : String), (childHandle h s).path = h.path ++ [s] :=
  stringify_descendAccess ["foo", "bar"] (by decide) (by decide)

/-- C9: the `'$key'` case returns `key ?? currentPath` — the stable
element key when the handle was constructed with one (as field-array
elements are), else the handle's own dotted path. -/
theorem keyQuery_spec (h : Handle) :
    (∀ k, h.key = some k → getProp h (.str "$key") = .opKey k) ∧
    (h.key = none → getProp h (.str "$key") = .opKey (joinPath h.path)) := by
  constructor
  · intro k hk
    simp [getProp, hk]
  · intro hk
    simp [getProp, hk]

/-- Witness for C9: a field-array element handle carrying key `"k1"`, and
a keyless handle at path `["a"]`. -/
theorem keyQuery_spec_witness :
    getProp (Handle.mk ["arr", "0"] (some "k1")) (.str "$key") = .opKey "k1" ∧
    getProp (Handle.mk ["a"] none) (.str "$key") =
      .opKey (joinPath ["a"]) :=
  ⟨(keyQuery_spec (Handle.mk ["arr", "0"] (some "k1"))).1 "k1" rfl,
   (keyQuery_spec (Handle.mk ["a"] none)).2 rfl⟩

/-- C10: the stable element key is not inherited — for a handle
constructed with key `k`, property access at any non-reserved key `s`
yields a child constructed without a key, whose `$key` query therefore
returns the child's own dotted path. -/
theorem child_key_not_inherited (p : List String) (k s : String)
    (hs : s ∉ reservedNames) :
    getProp (Handle.mk p (some k)) (.str s) =
      .child (Handle.mk (p ++ [s]) none) ∧
    getProp (Handle.mk (p ++ [s]) none) (.str "$key") =
      .opKey (joinPath (p ++ [s])) := by
  refine ⟨getProp_default (Handle.mk p (some k)) s hs, ?_⟩
  exact (keyQuery_spec (Handle.mk (p ++ [s]) none)).2 rfl

/-- Witness for C10 at parent `["arr", "0"]` with key `"id1"` and child
key `"name"`. -/
theorem child_key_not_inherited_witness :
    getProp (Handle.mk ["arr", "0"] (some "id1")) (.str "name") =
      .child (Handle.mk (["arr", "0"] ++ ["name"]) none) ∧
    getProp (Handle.mk (["arr", "0"] ++ ["name"]) none) (.str "$key") =
      .opKey (joinPath (["arr", "0"] ++ ["name"])) :=
  child_key_not_inherited ["arr", "0"] "id1" "name" (by decide)

/-! ### The per-handle memoization cache

JavaScript distinguishes primitives (identical iff equal) from objects
(identical iff the same allocation).  `Value` mirrors this: `prim`
carries a string compared by value, `obj` carries an allocation id (and
the `GetResult` it realizes), compared by id.  Equality of `Value` is
JavaScript `===`. -/

/-- A runtime value produced by the `get` trap: a string primitive, or a
function/proxy object identified by its allocation. -/
inductive Value where
  | prim (s : String)
  | obj (id : Nat) (content : GetResult)
deriving DecidableEq, Repr

/-- A handle instance together with its private `cache` record and an
allocation counter supplying fresh object identities. -/
structure HandleState where
  path : List String
  key : Option String
  cache : List (PropKey × Value)
  nextId : Nat
deriving DecidableEq, Repr

/-- `cache[prop]` — lookup in the cache record. -/
def lookupCache (c : List (PropKey × Value)) (p : PropKey) : Option Value :=
  (c.find? fun e => e.1 == p).map (·.2)

/-- One `get` trap access, with the cache: return the cached value when
present (`if (useCached !== undefined) return useCached`); the `'$key'`
case returns `key ?? currentPath` directly without storing it; every
other case allocates the resulting function/child proxy and stores it
(`return (cache[prop] = useCached)`). -/
def getOnce (st : HandleState) (p : PropKey) : Value × HandleState :=
  match lookupCache st.cache p with
  | some v => (v, st)
  | none =>
    if p = .str "$key" then
      (.prim (st.key.getD (joinPath st.path)), st)
    else
      let v := Value.obj st.nextId (getProp ⟨st.path, st.key⟩ p)
      (v, { st with cache := (p, v) :: st.cache, nextId := st.nextId + 1 })

/-- A freshly stored cache entry is found. -/
theorem lookupCache_cons_self (c : List (PropKey × Value)) (p : PropKey)
    (v : Value) : lookupCache ((p, v) :: c) p = some v := by
  simp [lookupCache, List.find?]

/-- C5: accessing the same key twice on the same handle instance returns
the identical value both times (`Value` equality is JavaScript reference
identity for objects and value identity for primitives), for every cache
state and every key — reserved operation names, `Symbol.toPrimitive`,
`'$key'`, and child keys alike. -/
theorem getOnce_idempotent_value (st : HandleState) (p : PropKey) :
    (getOnce ((getOnce st p).2) p).1 = (getOnce st p).1 := by
  unfold getOnce
  cases hc : lookupCache st.cache p with
  | some v => simp [hc]
  | none =>
    by_cases hp : p = .str "$key"
    · subst hp; simp [hc]
    · simp only [hc, if_neg hp]
      simp [lookupCache_cons_self]

/-! ### `$useFieldArray` -/

/-- What the engine's field-array primitive returns, at this layer's
granularity: the raw element descriptors (each reduced to the stable key
stored under the requested `keyName`, here always `'$key'`) and the
remaining members (`...rest`: append/insert/move/remove/...), opaque. -/
structure FieldArrayRaw (ρ : Type) where
  keys : List String
  rest : ρ

/-- The value returned by the `$useFieldArray` wrapper: the raw element
descriptors replaced by handles, the rest spread through. -/
structure FieldArrayResult (ρ : Type) where
  fields : List Handle
  rest : ρ

/-- The `'$useFieldArray'` case: destructures `{fields, ...rest}` out of
`useFieldArray({name: currentPath, keyName: '$key', control, ...props})`
and returns `{fields: fields.map(({$key}, i) =>
createFormBuilder(methods, [...path, i.toString()], $key)), ...rest}`.
The engine primitive is an oracle taking `(name, keyName, props)`. -/
def useFieldArrayImpl (h : Handle)
    (engine : String → String → π → FieldArrayRaw ρ) (props : π) :
    FieldArrayResult ρ :=
  let raw := engine (joinPath h.path) "$key" props
  { fields := raw.keys.mapIdx fun i k =>
      Handle.mk (h.path ++ [toString i]) (some k),
    rest := raw.rest }

/-- Indexing a `mapIdx`. -/
theorem getElem?_mapIdx (l : List α) (f : ℕ → α → β) (i : ℕ) :
    (l.mapIdx f)[i]? = l[i]?.map (f i) := by
  simp [List.mapIdx_eq_enum_map, List.getElem?_enum, Option.map_map]
  rfl

/-- C6: the field-array operation queries the engine's primitive at the
handle's own dotted path with the fixed per-element key field name
`'$key'`; in its result, the raw element at index `i` is replaced by a
handle at `own path ++ [i]` carrying that element's stable key, the
element count is preserved, and the primitive's other return members are
passed through unchanged. -/
theorem useFieldArray_spec (h : Handle)
    (engine : String → String → π → FieldArrayRaw ρ) (props : π) :
    (useFieldArrayImpl h engine props).rest =
      (engine (joinPath h.path) "$key" props).rest ∧
    (useFieldArrayImpl h engine props).fields.length =
      (engine (joinPath h.path) "$key" props).keys.length ∧
    ∀ (i : ℕ) (k : String),
      (engine (joinPath h.path) "$key" props).keys[i]? = some k →
      (useFieldArrayImpl h engine props).fields[i]? =
        some (Handle.mk (h.path ++ [toString i]) (some k)) := by
  refine ⟨rfl, ?_, ?_⟩
  · simp [useFieldArrayImpl]
  · intro i k hk
    simp [useFieldArrayImpl, getElem?_mapIdx, hk]

/-- Witness for C6: a concrete engine returning two elements with keys
`"ka"`, `"kb"` under the handle at path `["things"]`. -/
theorem useFieldArray_spec_witness :
    (useFieldArrayImpl (Handle.mk ["things"] none)
        (fun _ _ _ => FieldArrayRaw.mk ["ka", "kb"] (37 : Nat)) ()).fields[1]? =
      some (Handle.mk (["things"] ++ [toString 1]) (some "kb")) :=
  (useFieldArray_spec (Handle.mk ["things"] none)
    (fun _ _ _ => FieldArrayRaw.mk ["ka", "kb"] (37 : Nat)) ()).2.2 1 "kb" rfl

/-! ### `$discriminate` -/

/-- The `'$discriminate'` case: `(fieldName) =>
[methods.watch(prependCurrentPath(currentPath, fieldName)), receiver]` —
the engine's synchronous value read at the composed path, paired with the
proxy itself (`receiver`).  The read primitive is an oracle over the
composed path value. -/
def discriminateImpl (h : Handle) (watch : PathResult → V)
    (fieldName : String) : V × Handle :=
  (watch (prependCurrentPath (joinPath h.path) (.single fieldName)), h)

/-- C7 counterexample: on the root handle the composed path is the bare
field name, not `own path ++ "." ++ field name`: with the identity read
oracle, discriminating the root on `"b"` reads path `"b"`, while the
claim's `own path + '.' + field name` would be `".b"`. -/
theorem discriminate_root_counterexample :
    (discriminateImpl rootHandle (fun r => r) "b").1 =
      .single "b" ∧
    PathResult.single "b" ≠
      .single (joinPath rootHandle.path ++ "." ++ "b") := by
  constructor
  · rfl
  · decide

/-- C7 (amended): the discriminate operation returns a pair whose second
component is the very handle it was called on, and whose first component
is the engine's synchronous read at the composed path: `own path ++ "."
++ field name` when the own (dotted) path is non-empty, and the bare
field name when the own path is empty (the root). -/
theorem discriminate_spec (h : Handle) (watch : PathResult → V)
    (fieldName : String) :
    (discriminateImpl h watch fieldName).2 = h ∧
    (joinPath h.path ≠ "" →
      (discriminateImpl h watch fieldName).1 =
        watch (.single (joinPath h.path ++ "." ++ fieldName))) ∧
    (joinPath h.path = "" →
      (discriminateImpl h watch fieldName).1 =
        watch (.single fieldName)) := by
  refine ⟨rfl, ?_, ?_⟩
  · intro hne
    have hlen : ¬ (joinPath h.path).length = 0 := by
      simpa [strLength_eq_zero_iff] using hne
    simp [discriminateImpl, prependCurrentPath, hlen]
  · intro he
    simp [discriminateImpl, prependCurrentPath, he]

/-- Witness for C7 (amended) at the handle `["a", "b"]` with the identity
read oracle and field name `"kind"`. -/
theorem discriminate_spec_witness :
    (discriminateImpl (Handle.mk ["a", "b"] none) (fun r => r) "kind").2 =
      Handle.mk ["a", "b"] none ∧
    (discriminateImpl (Handle.mk ["a", "b"] none) (fun r => r) "kind").1 =
      .single (joinPath ["a", "b"] ++ "." ++ "kind") := by
  have hspec := discriminate_spec (Handle.mk ["a", "b"] none)
    (fun r => (r : PathResult)) "kind"
  exact ⟨hspec.1, hspec.2.1 (by decide)⟩

/-! ### `$useState`

The engine's `useFormState` result and the engine library's `get` helper
operate on nested objects; `JTree` models such a nested result. -/

/-- A nested result value: a leaf datum or an object of named members. -/
inductive JTree where
  | leaf (v : String)
  | node (entries : List (String × JTree))

/-- Lookup of a member in an object's entry list. -/
def entryLookup : List (String × JTree) → String → Option JTree
  | [], _ => none
  | (k, t) :: rest, s => if k = s then some t else entryLookup rest s

/-- Navigation along a segment sequence. -/
def getSegs : JTree → List String → Option JTree
  | t, [] => some t
  | .leaf _, _ :: _ => none
  | .node es, s :: rest =>
    match entryLookup es s with
    | some t => getSegs t rest
    | none => none

/-- Splitting a character list at `'.'`. -/
def splitDotsAux : List Char → List Char → List String
  | [], acc => [String.mk acc.reverse]
  | c :: rest, acc =>
    if c = '.' then
      String.mk acc.reverse :: splitDotsAux rest []
    else
      splitDotsAux rest (c :: acc)

/-- Splitting a dotted path string into its segments. -/
def splitDots (s : String) : List String :=
  splitDotsAux s.data []

/-- Modelled from the spec: the engine library's `get` utility (imported
from the external form-state engine, not part of this repository's
sources) that "extracts and returns only the error and dirty-flag entries
for own path from the full state result" — navigation of a nested result
along a dotted path, segment by segment (empty segments are skipped, so
the empty path denotes the whole result). -/
def getPath (t : JTree) (dotted : String) : Option JTree :=
  getSegs t ((splitDots dotted).filter (· ≠ ""))

/-- The engine's form-state primitive result: the full nested `errors`
and `dirtyFields` objects. -/
structure FormStateResult where
  errors : JTree
  dirtyFields : JTree

/-- The `'$useState'` case: destructures `{errors: rootErrors,
dirtyFields: rootDirtyFields}` from `useFormState({...props, control,
name: currentPath})` and returns `{errors: get(rootErrors, currentPath),
dirty: get(rootDirtyFields, currentPath)}`.  The primitive is an oracle
over the name it is subscribed with. -/
def useStateImpl (h : Handle) (engine : String → FormStateResult) :
    Option JTree × Option JTree :=
  let res := engine (joinPath h.path)
  (getPath res.errors (joinPath h.path), getPath res.dirtyFields (joinPath h.path))

/-- C8: the state-query operation subscribes the engine's form-state
primitive at the handle's own dotted path and returns exactly the error
entry and the dirty-flag entry located at that path within the full
nested results — and nothing from any other path: the returned pair is a
function of those two entries alone, so engine states agreeing at the own
path are indistinguishable through it. -/
theorem useState_spec (h : Handle) (engine engine' : String → FormStateResult) :
    useStateImpl h engine =
      (getPath (engine (joinPath h.path)).errors (joinPath h.path),
       getPath (engine (joinPath h.path)).dirtyFields (joinPath h.path)) ∧
    (getPath (engine (joinPath h.path)).errors (joinPath h.path) =
        getPath (engine' (joinPath h.path)).errors (joinPath h.path) →
      getPath (engine (joinPath h.path)).dirtyFields (joinPath h.path) =
        getPath (engine' (joinPath h.path)).dirtyFields (joinPath h.path) →
      useStateImpl h engine = useStateImpl h engine') := by
  refine ⟨rfl, ?_⟩
  intro he hd
  simp [useStateImpl, he, hd]

/-- Witness for C8: a state with an error marked exactly at `a.b`; the
query at the handle `["a", "b"]` returns that error entry and its dirty
flag, and a second engine state agreeing there is indistinguishable. -/
theorem useState_spec_witness :
    useStateImpl (Handle.mk ["a", "b"] none)
        (fun _ => FormStateResult.mk
          (.node [("a", .node [("b", .leaf "required")])])
          (.node [("a", .node [("b", .leaf "true")])])) =
      useStateImpl (Handle.mk ["a", "b"] none)
        (fun _ => FormStateResult.mk
          (.node [("a", .node [("b", .leaf "required"), ("c", .leaf "x")])])
          (.node [("c", .leaf "y"), ("a", .node [("b", .leaf "true")])])) :=
  (useState_spec (Handle.mk ["a", "b"] none)
      (fun _ => FormStateResult.mk
        (.node [("a", .node [("b", .leaf "required")])])
        (.node [("a", .node [("b", .leaf "true")])]))
      (fun _ => FormStateResult.mk
        (.node [("a", .node [("b", .leaf "required"), ("c", .leaf "x")])])
        (.node [("c", .leaf "y"), ("a", .node [("b", .leaf "true")])]))).2
    (by rfl) (by rfl)

end FormBuilder
